import Mathlib

/-!
Shallow embedding of the banking application in `src/banking.py`:
transactions, accounts (checking and savings), and the bank ledger with
deposits, withdrawals, transfers, interest accrual and statistics.

Modelling conventions:
* Money is represented with exact rationals; the source uses Python floats,
  but every property verified here concerns business logic, not rounding.
* The wall clock is reduced to the only part the code reads, the current
  calendar month `datetime.datetime.now().month`, passed explicitly as a
  `curMonth : Nat` argument to every operation that consults it.
* Python exceptions become explicit error values.  A mutating method
  returns `State × Option BankError`: the returned state keeps any field
  mutations performed before the raise (a Python object keeps partial
  mutations when a method raises), and `some e` marks the raised error.
  Constructors perform no mutation before raising, so they return
  `Except BankError Account`.
* Transaction ids (`uuid4`) and timestamps are opaque fresh values never
  inspected by the program logic; they are omitted from the record.
* The class hierarchy Account / CheckingAccount / SavingsAccount is
  embedded as one record with a `kind` tag; the savings-only fields are
  carried as inert defaults by checking accounts.
-/

namespace Banking

/-- Transaction types used by the source: deposit, withdrawal, transfer,
interest (src/banking.py line 28). -/
inductive TxKind where
  | deposit
  | withdrawal
  | transfer
  | interest
  deriving DecidableEq

/-- One ledger event (class `Transaction`, src/banking.py lines 20-45),
keeping the fields the program logic inspects. -/
structure Transaction where
  transaction_type : TxKind
  amount : ℚ
  description : String
  deriving DecidableEq

/-- Error values standing for the Python exceptions the program raises:
`InvalidAmountError`, `InsufficientFundsError`,
`MonthlyWithdrawalLimitError`, and `ValueError` (used by the code for
lookup failures, same-account transfers and unknown account kinds). -/
inductive BankError where
  | invalidAmount
  | insufficientFunds
  | monthlyWithdrawalLimit
  | valueError (msg : String)
  deriving DecidableEq

/-- The two concrete account classes. -/
inductive AccountKind where
  | checking
  | savings
  deriving DecidableEq

/-- State of an account object (classes `Account`, `CheckingAccount`,
`SavingsAccount`, src/banking.py lines 63-305).  The last four fields are
the `SavingsAccount` extras; a checking account carries them as inert
defaults and never reads them. -/
structure Account where
  kind : AccountKind
  name : String
  balance : ℚ
  transactions : List Transaction
  interest_rate : ℚ
  withdrawal_limit : Nat
  withdrawals_this_month : Nat
  last_withdrawal_month : Option Nat
  deriving DecidableEq

/-- Account construction (`Account.__init__` lines 66-88 together with the
subclass initialisers, lines 203-205 and 215-228): rejects a negative
initial balance, records an initial deposit transaction when the initial
balance is positive; a savings account starts with limit 3, count 0, and
a last-observed month set only when the initial balance is positive. -/
def Account.make (kind : AccountKind) (name : String) (initial_balance : ℚ)
    (interest_rate : ℚ) (curMonth : Nat) : Except BankError Account :=
  if initial_balance < 0 then
    .error .invalidAmount
  else
    .ok
      { kind := kind
        name := name
        balance := initial_balance
        transactions :=
          if initial_balance > 0 then
            [⟨.deposit, initial_balance, "Initial deposit"⟩]
          else []
        interest_rate := interest_rate
        withdrawal_limit := 3
        withdrawals_this_month := 0
        last_withdrawal_month :=
          if initial_balance > 0 then some curMonth else none }

/-- Method `Account.deposit` (lines 110-126). -/
def Account.deposit (a : Account) (amount : ℚ) (description : String) :
    Account × Option BankError :=
  if amount ≤ 0 then
    (a, some .invalidAmount)
  else
    ({ a with
        balance := a.balance + amount
        transactions := a.transactions ++ [⟨.deposit, amount, description⟩] },
      none)

/-- Method `Account.withdraw` (lines 128-148), the base-class logic used
directly by checking accounts and via `super()` by savings accounts. -/
def Account.base_withdraw (a : Account) (amount : ℚ) (description : String) :
    Account × Option BankError :=
  if amount ≤ 0 then
    (a, some .invalidAmount)
  else if amount > a.balance then
    (a, some .insufficientFunds)
  else
    ({ a with
        balance := a.balance - amount
        transactions := a.transactions ++ [⟨.withdrawal, amount, description⟩] },
      none)

/-- Method `Account.add_transaction_record` (lines 150-159): append a
transaction without touching the balance.  Defined in the source but not
called by any of the flows verified here. -/
def Account.add_transaction_record (a : Account) (t : TxKind) (amount : ℚ)
    (description : String) : Account :=
  { a with transactions := a.transactions ++ [⟨t, amount, description⟩] }

/-- The lazy month-rollover step that both `SavingsAccount.withdraw`
(lines 282-287) and `SavingsAccount.withdrawals_remaining` (lines 247-251)
perform: if the current month differs from the last observed one, reset
the count to 0 and record the current month. -/
def Account.month_rollover (a : Account) (curMonth : Nat) : Account :=
  if a.last_withdrawal_month ≠ some curMonth then
    { a with withdrawals_this_month := 0, last_withdrawal_month := some curMonth }
  else a

/-- Method `SavingsAccount.withdraw` (lines 269-295): lazy month rollover,
then the limit check, then the base-class withdrawal, incrementing the
monthly count only when the withdrawal succeeded. -/
def Account.savings_withdraw (a : Account) (amount : ℚ) (description : String)
    (curMonth : Nat) : Account × Option BankError :=
  if (a.month_rollover curMonth).withdrawals_this_month ≥
      (a.month_rollover curMonth).withdrawal_limit then
    (a.month_rollover curMonth, some .monthlyWithdrawalLimit)
  else
    match (a.month_rollover curMonth).base_withdraw amount description with
    | (a2, none) =>
        ({ a2 with withdrawals_this_month := a2.withdrawals_this_month + 1 }, none)
    | (a2, some e) => (a2, some e)

/-- Dynamic dispatch of `withdraw`: checking accounts run the base-class
method, savings accounts run the overriding method. -/
def Account.withdraw (a : Account) (amount : ℚ) (description : String)
    (curMonth : Nat) : Account × Option BankError :=
  match a.kind with
  | .checking => a.base_withdraw amount description
  | .savings => a.savings_withdraw amount description curMonth

/-- Property `SavingsAccount.withdrawals_remaining` (lines 244-253): lazy
month rollover, then limit minus count.  Returns the updated object state
together with the value. -/
def Account.withdrawals_remaining (a : Account) (curMonth : Nat) :
    Account × Int :=
  (a.month_rollover curMonth,
    ((a.month_rollover curMonth).withdrawal_limit : Int) -
      ((a.month_rollover curMonth).withdrawals_this_month : Int))

/-- Method `SavingsAccount.apply_interest` (lines 255-267): computes
`balance * (interest_rate / 12)`; when positive, adds it to the balance
and appends an interest transaction; returns the amount applied. -/
def Account.apply_interest (a : Account) : Account × ℚ :=
  if a.balance * (a.interest_rate / 12) > 0 then
    ({ a with
        balance := a.balance + a.balance * (a.interest_rate / 12)
        transactions :=
          a.transactions ++
            [⟨.interest, a.balance * (a.interest_rate / 12), "Monthly interest"⟩] },
      a.balance * (a.interest_rate / 12))
  else (a, a.balance * (a.interest_rate / 12))

/-- The ledger (class `Bank`, lines 308-481): a name and an
insertion-ordered mapping from account number to account, modelling the
Python dict `self._accounts`. -/
structure Bank where
  name : String
  accounts : List (String × Account)
  deriving DecidableEq

/-- Python dict lookup `self._accounts.get(k)`: first entry with the key. -/
def dictGet (l : List (String × Account)) (k : String) : Option Account :=
  match l with
  | [] => none
  | (k0, v0) :: rest => if k0 = k then some v0 else dictGet rest k

/-- Python dict assignment `self._accounts[k] = v`: replace the entry in
place when the key is present, otherwise append at the end. -/
def dictSet (l : List (String × Account)) (k : String) (v : Account) :
    List (String × Account) :=
  match l with
  | [] => [(k, v)]
  | (k0, v0) :: rest =>
      if k0 = k then (k, v) :: rest else (k0, v0) :: dictSet rest k v

/-- Method `Bank.get_account` (lines 350-360). -/
def Bank.get_account (b : Bank) (account_number : String) : Option Account :=
  dictGet b.accounts account_number

/-- The Python string method `lower()` used on the requested account kind
(line 338), modelled as lower-casing every character. -/
def lower (s : String) : String := ⟨s.data.map Char.toLower⟩

/-- Method `Bank.create_account` (lines 321-348): lower-case the requested
kind, build the matching account variant (propagating the construction
error), and register it under the freshly generated account number,
modelled as the explicit argument `newId`.  A checking account takes no
interest rate; the inert field is stored as 0. -/
def Bank.create_account (b : Bank) (account_type : String) (name : String)
    (initial_balance : ℚ) (interest_rate : ℚ) (curMonth : Nat) (newId : String) :
    Bank × Except BankError Account :=
  if lower account_type = "checking" then
    match Account.make .checking name initial_balance 0 curMonth with
    | .error e => (b, .error e)
    | .ok acct => ({ b with accounts := dictSet b.accounts newId acct }, .ok acct)
  else if lower account_type = "savings" then
    match Account.make .savings name initial_balance interest_rate curMonth with
    | .error e => (b, .error e)
    | .ok acct => ({ b with accounts := dictSet b.accounts newId acct }, .ok acct)
  else
    (b, .error (.valueError "Invalid account type. Choose checking or savings"))

/-- Outcome of `Bank.transfer`: either a raised exception (the pre-checks
raise; the caller sees the exception) or a returned boolean (the
`try`-block converts exceptions raised inside it into `False`). -/
inductive TransferOutcome where
  | raised (e : BankError)
  | returned (success : Bool)
  deriving DecidableEq

/-- Method `Bank.transfer` (lines 392-449): resolve both accounts (raising
`ValueError` when missing), raise on a same-account transfer, a
non-positive amount, or insufficient funds; then, inside a `try` block
whose exceptions are converted to `False`, withdraw from the source and
deposit to the destination, returning `True` on success.  The
`isinstance` branches of the source perform the same two calls, which the
dynamic dispatch in `Account.withdraw` covers. -/
def Bank.transfer (b : Bank) (from_account_number to_account_number : String)
    (amount : ℚ) (curMonth : Nat) : Bank × TransferOutcome :=
  match b.get_account from_account_number with
  | none => (b, .raised (.valueError "Source account not found"))
  | some from_account =>
    match b.get_account to_account_number with
    | none => (b, .raised (.valueError "Destination account not found"))
    | some to_account =>
      if from_account_number = to_account_number then
        (b, .raised (.valueError "Cannot transfer to the same account"))
      else if amount ≤ 0 then
        (b, .raised .invalidAmount)
      else if amount > from_account.balance then
        (b, .raised .insufficientFunds)
      else
        match from_account.withdraw amount
            ("Transfer to account " ++ to_account_number) curMonth with
        | (fa2, some _) =>
            ({ b with accounts := dictSet b.accounts from_account_number fa2 },
              .returned false)
        | (fa2, none) =>
            match to_account.deposit amount
                ("Transfer from account " ++ from_account_number) with
            | (ta2, some _) =>
                ({ b with accounts := dictSet (dictSet b.accounts from_account_number fa2) to_account_number ta2 },
                  .returned false)
            | (ta2, none) =>
                ({ b with accounts := dictSet (dictSet b.accounts from_account_number fa2) to_account_number ta2 },
                  .returned true)

/-- Body of the loop in `Bank.apply_interest_to_savings_accounts`
(lines 379-390): walk the accounts in order, apply interest to each
savings account in place, and accumulate the total interest. -/
def applyInterestList : List (String × Account) → List (String × Account) × ℚ
  | [] => ([], 0)
  | (k, a) :: rest =>
    match a.kind with
    | .savings =>
        ((k, (a.apply_interest).1) :: (applyInterestList rest).1,
          (a.apply_interest).2 + (applyInterestList rest).2)
    | .checking => ((k, a) :: (applyInterestList rest).1, (applyInterestList rest).2)

/-- Method `Bank.apply_interest_to_savings_accounts` (lines 379-390). -/
def Bank.apply_interest_to_savings_accounts (b : Bank) : Bank × ℚ :=
  ({ b with accounts := (applyInterestList b.accounts).1 },
    (applyInterestList b.accounts).2)

/-- Record returned by `Bank.get_bank_statistics` (lines 451-468). -/
structure BankStats where
  total_accounts : Nat
  checking_accounts : Nat
  savings_accounts : Nat
  total_balance : ℚ
  checking_balance : ℚ
  savings_balance : ℚ
  deriving DecidableEq

/-- Method `Bank.get_bank_statistics` (lines 451-468): counts and balance
sums over all accounts, partitioned by `isinstance` checks, modelled by
the `kind` tag. -/
def Bank.get_bank_statistics (b : Bank) : BankStats :=
  { total_accounts := b.accounts.length
    checking_accounts :=
      (b.accounts.filter fun kv => kv.2.kind == AccountKind.checking).length
    savings_accounts :=
      (b.accounts.filter fun kv => kv.2.kind == AccountKind.savings).length
    total_balance := (b.accounts.map fun kv => kv.2.balance).sum
    checking_balance :=
      ((b.accounts.filter fun kv => kv.2.kind == AccountKind.checking).map
        fun kv => kv.2.balance).sum
    savings_balance :=
      ((b.accounts.filter fun kv => kv.2.kind == AccountKind.savings).map
        fun kv => kv.2.balance).sum }

/-- Signed value of a transaction for the ledger-sum invariant: deposits,
interest (and transfer records) count positive, withdrawals negative. -/
def Transaction.signed_amount (t : Transaction) : ℚ :=
  match t.transaction_type with
  | .withdrawal => -t.amount
  | _ => t.amount

/-- Sum of signed transaction amounts of a log. -/
def signed_sum (l : List Transaction) : ℚ :=
  (l.map Transaction.signed_amount).sum

/-- The ledger-sum invariant of one account: the balance equals the sum of
the signed amounts of its transaction log. -/
def balance_invariant (a : Account) : Prop :=
  a.balance = signed_sum a.transactions

instance (a : Account) : Decidable (balance_invariant a) := by
  unfold balance_invariant
  infer_instance

instance : DecidableEq (Except BankError Account) := fun a b =>
  match a, b with
  | .error x, .error y =>
      decidable_of_iff (x = y) ⟨fun h => by rw [h], fun h => by injection h⟩
  | .error _, .ok _ => isFalse (fun h => Except.noConfusion h)
  | .ok _, .error _ => isFalse (fun h => Except.noConfusion h)
  | .ok x, .ok y =>
      decidable_of_iff (x = y) ⟨fun h => by rw [h], fun h => by injection h⟩

/-! ### Per-account view of the interest sweep, and concrete states used in witnesses -/

/-- Per-account effect of the interest sweep. -/
def interest_map (a : Account) : Account :=
  match a.kind with
  | .savings => (a.apply_interest).1
  | .checking => a

/-- Per-account contribution to the total returned by the sweep. -/
def interest_value (a : Account) : ℚ :=
  match a.kind with
  | .savings => (a.apply_interest).2
  | .checking => 0

/-- A checking account as produced by `Account.make .checking "Alice" 500 0 1`. -/
def alice_account : Account :=
  ⟨.checking, "Alice", 500, [⟨.deposit, 500, "Initial deposit"⟩], 0, 3, 0, some 1⟩

/-- A checking account as produced by `Account.make .checking "Bob" 1000 0 1`. -/
def bob_account : Account :=
  ⟨.checking, "Bob", 1000, [⟨.deposit, 1000, "Initial deposit"⟩], 0, 3, 0, some 1⟩

/-- A two-account ledger holding `alice_account` and `bob_account`. -/
def two_account_bank : Bank := ⟨"T", [("a", alice_account), ("b", bob_account)]⟩

/-- A savings account at its monthly limit: the state reached from
`Account.make .savings "S" 100 (1/100) 5` after three unit withdrawals in
month 5 (see `savings_at_limit_reachable`). -/
def savings_at_limit : Account :=
  ⟨.savings, "S", 97,
    [⟨.deposit, 100, "Initial deposit"⟩, ⟨.withdrawal, 1, "w1"⟩,
      ⟨.withdrawal, 1, "w2"⟩, ⟨.withdrawal, 1, "w3"⟩],
    1/100, 3, 3, some 5⟩

/-- Intermediate states of the three-withdrawal scenario. -/
def savings_fresh : Account :=
  ⟨.savings, "S", 100, [⟨.deposit, 100, "Initial deposit"⟩], 1/100, 3, 0, some 5⟩

def savings_after_one : Account :=
  ⟨.savings, "S", 99,
    [⟨.deposit, 100, "Initial deposit"⟩, ⟨.withdrawal, 1, "w1"⟩],
    1/100, 3, 1, some 5⟩

def savings_after_two : Account :=
  ⟨.savings, "S", 98,
    [⟨.deposit, 100, "Initial deposit"⟩, ⟨.withdrawal, 1, "w1"⟩,
      ⟨.withdrawal, 1, "w2"⟩],
    1/100, 3, 2, some 5⟩

/-- The checking account produced by `Account.make .checking "A" 100 0 1`:
its log already contains the initial deposit transaction. -/
def initial_100_account : Account :=
  ⟨.checking, "A", 100, [⟨.deposit, 100, "Initial deposit"⟩], 0, 3, 0, some 1⟩

/-- The checking account of the interest-sweep scenario (balance 100). -/
def interest_checking : Account :=
  ⟨.checking, "C", 100, [⟨.deposit, 100, "Initial deposit"⟩], 0, 3, 0, some 1⟩

/-- The savings account of the interest-sweep scenario (balance 1200,
annual rate 0.12). -/
def interest_savings : Account :=
  ⟨.savings, "S", 1200, [⟨.deposit, 1200, "Initial deposit"⟩], 12/100, 3, 0,
    some 1⟩

/-- The two-account ledger of the interest-sweep scenario. -/
def interest_bank : Bank :=
  ⟨"T", [("c1", interest_checking), ("s1", interest_savings)]⟩

/-- A ledger whose source account is a savings account at its monthly
withdrawal limit, used to exercise the conversion of an in-phase
transfer failure into a returned False. -/
def limit_bank : Bank := ⟨"T", [("s", savings_at_limit), ("b", bob_account)]⟩

/-! ### Basic lemmas about the dictionary operations -/

theorem dictGet_dictSet_self (l : List (String × Account)) (k : String)
    (v : Account) : dictGet (dictSet l k v) k = some v := by
  induction l with
  | nil => simp [dictGet, dictSet]
  | cons kv rest ih =>
      obtain ⟨k0, v0⟩ := kv
      by_cases h : k0 = k
      · simp [dictGet, dictSet, h]
      · simp [dictGet, dictSet, h, ih]

theorem dictGet_dictSet_ne (l : List (String × Account)) (k k' : String)
    (v : Account) (h : k' ≠ k) : dictGet (dictSet l k v) k' = dictGet l k' := by
  induction l with
  | nil => simp [dictGet, dictSet, Ne.symm h]
  | cons kv rest ih =>
      obtain ⟨k0, v0⟩ := kv
      by_cases hk : k0 = k
      · subst hk
        simp [dictGet, dictSet, Ne.symm h]
      · by_cases hk' : k0 = k'
        · simp [dictGet, dictSet, hk, hk', h]
        · simp [dictGet, dictSet, hk, hk', ih]

theorem dictGet_mem (l : List (String × Account)) (k : String) (v : Account)
    (h : dictGet l k = some v) : (k, v) ∈ l := by
  induction l with
  | nil => simp [dictGet] at h
  | cons kv rest ih =>
      obtain ⟨k0, v0⟩ := kv
      by_cases hk : k0 = k
      · simp [dictGet, hk] at h
        subst hk
        simp [h]
      · simp [dictGet, hk] at h
        exact List.mem_cons_of_mem _ (ih h)

theorem mem_dictSet (l : List (String × Account)) (k : String) (v : Account)
    (kv : String × Account) (h : kv ∈ dictSet l k v) : kv = (k, v) ∨ kv ∈ l := by
  induction l with
  | nil => simpa [dictSet] using h
  | cons kv0 rest ih =>
      obtain ⟨k0, v0⟩ := kv0
      by_cases hk : k0 = k
      · simp only [dictSet, hk, if_pos rfl] at h
        rcases List.mem_cons.mp h with h | h
        · exact .inl h
        · exact .inr (List.mem_cons_of_mem _ h)
      · simp only [dictSet, if_neg hk] at h
        rcases List.mem_cons.mp h with h | h
        · exact .inr (by simp [h])
        · rcases ih h with h' | h'
          · exact .inl h'
          · exact .inr (List.mem_cons_of_mem _ h')

/-! ### Lemmas about the signed transaction sum -/

theorem signed_sum_append (l : List Transaction) (t : Transaction) :
    signed_sum (l ++ [t]) = signed_sum l + t.signed_amount := by
  simp [signed_sum]

/-! ### Effect lemmas for the account operations -/

theorem deposit_nonpos (a : Account) (amount : ℚ) (d : String)
    (h : amount ≤ 0) : a.deposit amount d = (a, some .invalidAmount) := by
  simp [Account.deposit, h]

theorem deposit_pos (a : Account) (amount : ℚ) (d : String)
    (h : ¬ amount ≤ 0) :
    a.deposit amount d =
      ({ a with
          balance := a.balance + amount
          transactions := a.transactions ++ [⟨.deposit, amount, d⟩] }, none) := by
  simp [Account.deposit, h]

theorem month_rollover_balance (a : Account) (m : Nat) :
    (a.month_rollover m).balance = a.balance := by
  unfold Account.month_rollover
  split <;> rfl

theorem month_rollover_transactions (a : Account) (m : Nat) :
    (a.month_rollover m).transactions = a.transactions := by
  unfold Account.month_rollover
  split <;> rfl

theorem month_rollover_limit (a : Account) (m : Nat) :
    (a.month_rollover m).withdrawal_limit = a.withdrawal_limit := by
  unfold Account.month_rollover
  split <;> rfl

theorem withdraw_checking (a : Account) (amount : ℚ) (d : String) (m : Nat)
    (hk : a.kind = .checking) :
    a.withdraw amount d m = a.base_withdraw amount d := by
  unfold Account.withdraw
  rw [hk]

theorem withdraw_savings (a : Account) (amount : ℚ) (d : String) (m : Nat)
    (hk : a.kind = .savings) :
    a.withdraw amount d m = a.savings_withdraw amount d m := by
  unfold Account.withdraw
  rw [hk]

theorem base_withdraw_nonpos (a : Account) (amount : ℚ) (d : String)
    (h : amount ≤ 0) : a.base_withdraw amount d = (a, some .invalidAmount) := by
  unfold Account.base_withdraw
  rw [if_pos h]

theorem base_withdraw_over (a : Account) (amount : ℚ) (d : String)
    (h1 : ¬ amount ≤ 0) (h2 : amount > a.balance) :
    a.base_withdraw amount d = (a, some .insufficientFunds) := by
  unfold Account.base_withdraw
  rw [if_neg h1, if_pos h2]

theorem base_withdraw_valid (a : Account) (amount : ℚ) (d : String)
    (h1 : ¬ amount ≤ 0) (h2 : ¬ amount > a.balance) :
    a.base_withdraw amount d =
      ({ a with
          balance := a.balance - amount
          transactions := a.transactions ++ [⟨.withdrawal, amount, d⟩] },
        none) := by
  unfold Account.base_withdraw
  rw [if_neg h1, if_neg h2]

theorem base_withdraw_err (a : Account) (amount : ℚ) (d : String)
    (e : BankError) (h : (a.base_withdraw amount d).2 = some e) :
    (a.base_withdraw amount d).1 = a := by
  by_cases h1 : amount ≤ 0
  · rw [base_withdraw_nonpos a amount d h1]
  · by_cases h2 : amount > a.balance
    · rw [base_withdraw_over a amount d h1 h2]
    · rw [base_withdraw_valid a amount d h1 h2] at h
      simp at h

theorem base_withdraw_ok (a : Account) (amount : ℚ) (d : String)
    (h : (a.base_withdraw amount d).2 = none) :
    (a.base_withdraw amount d).1.balance = a.balance - amount ∧
    (a.base_withdraw amount d).1.transactions =
      a.transactions ++ [⟨.withdrawal, amount, d⟩] ∧
    0 < amount ∧ amount ≤ a.balance := by
  by_cases h1 : amount ≤ 0
  · rw [base_withdraw_nonpos a amount d h1] at h
    simp at h
  · by_cases h2 : amount > a.balance
    · rw [base_withdraw_over a amount d h1 h2] at h
      simp at h
    · push_neg at h1 h2
      rw [base_withdraw_valid a amount d (by push_neg; exact h1) (by push_neg; exact h2)]
      exact ⟨rfl, rfl, h1, h2⟩

theorem savings_withdraw_limit (a : Account) (amount : ℚ) (d : String) (m : Nat)
    (hlim : (a.month_rollover m).withdrawals_this_month ≥
      (a.month_rollover m).withdrawal_limit) :
    a.savings_withdraw amount d m =
      (a.month_rollover m, some .monthlyWithdrawalLimit) := by
  unfold Account.savings_withdraw
  rw [if_pos hlim]

theorem savings_withdraw_under_err (a a2 : Account) (amount : ℚ) (d : String)
    (m : Nat) (e : BankError)
    (hlim : ¬ (a.month_rollover m).withdrawals_this_month ≥
      (a.month_rollover m).withdrawal_limit)
    (hw : (a.month_rollover m).base_withdraw amount d = (a2, some e)) :
    a.savings_withdraw amount d m = (a2, some e) := by
  unfold Account.savings_withdraw
  rw [if_neg hlim, hw]

theorem savings_withdraw_under_ok (a a2 : Account) (amount : ℚ) (d : String)
    (m : Nat)
    (hlim : ¬ (a.month_rollover m).withdrawals_this_month ≥
      (a.month_rollover m).withdrawal_limit)
    (hw : (a.month_rollover m).base_withdraw amount d = (a2, none)) :
    a.savings_withdraw amount d m =
      ({ a2 with withdrawals_this_month := a2.withdrawals_this_month + 1 },
        none) := by
  unfold Account.savings_withdraw
  rw [if_neg hlim, hw]

/-- On any failed withdrawal, the balance and the transaction log are
unchanged (the savings rollover may still update the counter fields). -/
theorem withdraw_err (a : Account) (amount : ℚ) (d : String) (m : Nat)
    (e : BankError) (h : (a.withdraw amount d m).2 = some e) :
    (a.withdraw amount d m).1.balance = a.balance ∧
    (a.withdraw amount d m).1.transactions = a.transactions := by
  cases hk : a.kind with
  | checking =>
      rw [withdraw_checking a amount d m hk] at h ⊢
      rw [base_withdraw_err a amount d e h]
      exact ⟨rfl, rfl⟩
  | savings =>
      rw [withdraw_savings a amount d m hk] at h ⊢
      by_cases hlim : (a.month_rollover m).withdrawals_this_month ≥
          (a.month_rollover m).withdrawal_limit
      · rw [savings_withdraw_limit a amount d m hlim]
        exact ⟨month_rollover_balance a m, month_rollover_transactions a m⟩
      · rcases hw : (a.month_rollover m).base_withdraw amount d with ⟨a2, e2⟩
        cases e2 with
        | none =>
            rw [savings_withdraw_under_ok a a2 amount d m hlim hw] at h
            simp at h
        | some e' =>
            rw [savings_withdraw_under_err a a2 amount d m e' hlim hw]
            have ha2 : a2 = a.month_rollover m := by
              have := base_withdraw_err (a.month_rollover m) amount d e'
                (by rw [hw])
              rw [hw] at this
              exact this
            rw [ha2]
            exact ⟨month_rollover_balance a m, month_rollover_transactions a m⟩

/-- On any successful withdrawal, the balance drops by the amount, exactly
one withdrawal transaction is appended, and the validations passed. -/
theorem withdraw_ok (a : Account) (amount : ℚ) (d : String) (m : Nat)
    (h : (a.withdraw amount d m).2 = none) :
    (a.withdraw amount d m).1.balance = a.balance - amount ∧
    (a.withdraw amount d m).1.transactions =
      a.transactions ++ [⟨.withdrawal, amount, d⟩] ∧
    0 < amount ∧ amount ≤ a.balance := by
  cases hk : a.kind with
  | checking =>
      rw [withdraw_checking a amount d m hk] at h ⊢
      exact base_withdraw_ok a amount d h
  | savings =>
      rw [withdraw_savings a amount d m hk] at h ⊢
      by_cases hlim : (a.month_rollover m).withdrawals_this_month ≥
          (a.month_rollover m).withdrawal_limit
      · rw [savings_withdraw_limit a amount d m hlim] at h
        simp at h
      · rcases hw : (a.month_rollover m).base_withdraw amount d with ⟨a2, e2⟩
        cases e2 with
        | some e' =>
            rw [savings_withdraw_under_err a a2 amount d m e' hlim hw] at h
            simp at h
        | none =>
            rw [savings_withdraw_under_ok a a2 amount d m hlim hw]
            have hok := base_withdraw_ok (a.month_rollover m) amount d
              (by rw [hw])
            rw [hw] at hok
            refine ⟨?_, ?_, hok.2.2.1, ?_⟩
            · simpa [month_rollover_balance] using hok.1
            · simpa [month_rollover_transactions] using hok.2.1
            · have := hok.2.2.2
              rwa [month_rollover_balance] at this

/-- Non-negativity is preserved by any withdrawal attempt. -/
theorem withdraw_nonneg (a : Account) (amount : ℚ) (d : String) (m : Nat)
    (h : 0 ≤ a.balance) : 0 ≤ (a.withdraw amount d m).1.balance := by
  rcases he : (a.withdraw amount d m).2 with _ | e
  · have := withdraw_ok a amount d m he
    rw [this.1]
    linarith [this.2.2.2]
  · have := withdraw_err a amount d m e he
    rw [this.1]
    exact h

theorem month_rollover_same (a : Account) (m : Nat)
    (h : a.last_withdrawal_month = some m) : a.month_rollover m = a := by
  unfold Account.month_rollover
  rw [if_neg]
  simp [h]

theorem month_rollover_ne (a : Account) (m : Nat)
    (h : a.last_withdrawal_month ≠ some m) :
    a.month_rollover m =
      { a with withdrawals_this_month := 0, last_withdrawal_month := some m } := by
  unfold Account.month_rollover
  rw [if_pos h]

theorem base_withdraw_count (a : Account) (amount : ℚ) (d : String) :
    (a.base_withdraw amount d).1.withdrawals_this_month =
      a.withdrawals_this_month := by
  unfold Account.base_withdraw
  split_ifs <;> rfl

theorem make_neg (k : AccountKind) (n : String) (bal rate : ℚ) (m : Nat)
    (h : bal < 0) : Account.make k n bal rate m = .error .invalidAmount := by
  unfold Account.make
  rw [if_pos h]

theorem make_nonneg (k : AccountKind) (n : String) (bal rate : ℚ) (m : Nat)
    (h : ¬ bal < 0) :
    Account.make k n bal rate m =
      .ok
        { kind := k
          name := n
          balance := bal
          transactions :=
            if bal > 0 then [⟨.deposit, bal, "Initial deposit"⟩] else []
          interest_rate := rate
          withdrawal_limit := 3
          withdrawals_this_month := 0
          last_withdrawal_month := if bal > 0 then some m else none } := by
  unfold Account.make
  rw [if_neg h]

theorem make_ok_fields (k : AccountKind) (n : String) (bal rate : ℚ) (m : Nat)
    (a : Account) (h : Account.make k n bal rate m = .ok a) :
    ¬ bal < 0 ∧
    a = { kind := k
          name := n
          balance := bal
          transactions :=
            if bal > 0 then [⟨.deposit, bal, "Initial deposit"⟩] else []
          interest_rate := rate
          withdrawal_limit := 3
          withdrawals_this_month := 0
          last_withdrawal_month := if bal > 0 then some m else none } := by
  by_cases hb : bal < 0
  · rw [make_neg k n bal rate m hb] at h
    exact absurd h (by simp)
  · rw [make_nonneg k n bal rate m hb] at h
    injection h with h
    exact ⟨hb, h.symm⟩

theorem apply_interest_pos (a : Account)
    (h : a.balance * (a.interest_rate / 12) > 0) :
    a.apply_interest =
      ({ a with
          balance := a.balance + a.balance * (a.interest_rate / 12)
          transactions :=
            a.transactions ++
              [⟨.interest, a.balance * (a.interest_rate / 12), "Monthly interest"⟩] },
        a.balance * (a.interest_rate / 12)) := by
  unfold Account.apply_interest
  rw [if_pos h]

theorem apply_interest_nonpos (a : Account)
    (h : ¬ a.balance * (a.interest_rate / 12) > 0) :
    a.apply_interest = (a, a.balance * (a.interest_rate / 12)) := by
  unfold Account.apply_interest
  rw [if_neg h]

/-! ### Invariant-preservation helpers -/

theorem make_balance_invariant (k : AccountKind) (n : String) (bal rate : ℚ)
    (m : Nat) (a : Account) (h : Account.make k n bal rate m = .ok a) :
    balance_invariant a := by
  obtain ⟨hb, ha⟩ := make_ok_fields k n bal rate m a h
  subst ha
  unfold balance_invariant
  by_cases hp : bal > 0
  · simp [hp, signed_sum, Transaction.signed_amount]
  · simp [hp, signed_sum]
    linarith [hb, hp]

theorem deposit_balance_invariant (a : Account) (amount : ℚ) (d : String)
    (h : balance_invariant a) : balance_invariant (a.deposit amount d).1 := by
  by_cases hle : amount ≤ 0
  · rw [deposit_nonpos a amount d hle]
    exact h
  · rw [deposit_pos a amount d hle]
    unfold balance_invariant at h ⊢
    simp only [signed_sum_append]
    rw [h]
    simp [Transaction.signed_amount]

theorem withdraw_balance_invariant (a : Account) (amount : ℚ) (d : String)
    (m : Nat) (h : balance_invariant a) :
    balance_invariant (a.withdraw amount d m).1 := by
  rcases he : (a.withdraw amount d m).2 with _ | e
  · obtain ⟨hb, ht, _, _⟩ := withdraw_ok a amount d m he
    unfold balance_invariant at h ⊢
    rw [hb, ht, signed_sum_append, h]
    simp [Transaction.signed_amount]
    ring
  · obtain ⟨hb, ht⟩ := withdraw_err a amount d m e he
    unfold balance_invariant at h ⊢
    rw [hb, ht]
    exact h

theorem apply_interest_balance_invariant (a : Account)
    (h : balance_invariant a) : balance_invariant (a.apply_interest).1 := by
  by_cases hp : a.balance * (a.interest_rate / 12) > 0
  · rw [apply_interest_pos a hp]
    unfold balance_invariant at h ⊢
    simp only [signed_sum_append]
    rw [h]
    simp [Transaction.signed_amount]
  · rw [apply_interest_nonpos a hp]
    exact h

theorem deposit_nonneg (a : Account) (amount : ℚ) (d : String)
    (h : 0 ≤ a.balance) : 0 ≤ (a.deposit amount d).1.balance := by
  by_cases hle : amount ≤ 0
  · rw [deposit_nonpos a amount d hle]
    exact h
  · rw [deposit_pos a amount d hle]
    push_neg at hle
    simp only
    linarith

theorem apply_interest_nonneg (a : Account) (h : 0 ≤ a.balance) :
    0 ≤ (a.apply_interest).1.balance := by
  by_cases hp : a.balance * (a.interest_rate / 12) > 0
  · rw [apply_interest_pos a hp]
    simp only
    linarith
  · rw [apply_interest_nonpos a hp]
    exact h

/-! ### The interest sweep as a map over the account list -/

theorem applyInterestList_fst (l : List (String × Account)) :
    (applyInterestList l).1 = l.map fun kv => (kv.1, interest_map kv.2) := by
  induction l with
  | nil => rfl
  | cons kv rest ih =>
      obtain ⟨k, a⟩ := kv
      cases hk : a.kind <;>
        simp [applyInterestList, hk, ih, interest_map]

theorem applyInterestList_snd (l : List (String × Account)) :
    (applyInterestList l).2 = (l.map fun kv => interest_value kv.2).sum := by
  induction l with
  | nil => rfl
  | cons kv rest ih =>
      obtain ⟨k, a⟩ := kv
      cases hk : a.kind <;>
        simp [applyInterestList, hk, ih, interest_value]

theorem dictGet_map_interest (l : List (String × Account)) (id : String) :
    dictGet (l.map fun kv => (kv.1, interest_map kv.2)) id =
      (dictGet l id).map interest_map := by
  induction l with
  | nil => rfl
  | cons kv rest ih =>
      obtain ⟨k, a⟩ := kv
      by_cases hk : k = id
      · simp [dictGet, hk]
      · simp [dictGet, hk, ih]

/-! ### Partition lemmas for the statistics -/

theorem count_partition (l : List (String × Account)) :
    l.length = (l.filter fun kv => kv.2.kind == AccountKind.checking).length +
      (l.filter fun kv => kv.2.kind == AccountKind.savings).length := by
  induction l with
  | nil => rfl
  | cons kv rest ih =>
      cases hk : kv.2.kind <;>
        simp [List.filter_cons, hk, ih] <;> omega

theorem balance_partition (l : List (String × Account)) :
    (l.map fun kv => kv.2.balance).sum =
      ((l.filter fun kv => kv.2.kind == AccountKind.checking).map
        fun kv => kv.2.balance).sum +
      ((l.filter fun kv => kv.2.kind == AccountKind.savings).map
        fun kv => kv.2.balance).sum := by
  induction l with
  | nil => simp
  | cons kv rest ih =>
      cases hk : kv.2.kind <;>
        simp [List.filter_cons, hk, ih] <;> ring

/-! ### Case analysis of the transfer protocol -/

/-- Exhaustive case analysis of `Bank.transfer`: each disjunct records the
conditions under which the corresponding branch of the source runs,
together with the resulting ledger state and outcome.  The branch in
which the destination deposit fails after a successful withdrawal is
impossible, because the transfer pre-checks already established a
positive amount; it therefore does not appear. -/
theorem transfer_spec (b : Bank) (A B : String) (amt : ℚ) (m : Nat) :
    (b.get_account A = none ∧
      b.transfer A B amt m = (b, .raised (.valueError "Source account not found"))) ∨
    ((b.get_account A).isSome ∧ b.get_account B = none ∧
      b.transfer A B amt m = (b, .raised (.valueError "Destination account not found"))) ∨
    ((b.get_account A).isSome ∧ (b.get_account B).isSome ∧ A = B ∧
      b.transfer A B amt m = (b, .raised (.valueError "Cannot transfer to the same account"))) ∨
    ((b.get_account A).isSome ∧ (b.get_account B).isSome ∧ A ≠ B ∧ amt ≤ 0 ∧
      b.transfer A B amt m = (b, .raised .invalidAmount)) ∨
    (∃ fa, b.get_account A = some fa ∧ (b.get_account B).isSome ∧ A ≠ B ∧
      0 < amt ∧ fa.balance < amt ∧
      b.transfer A B amt m = (b, .raised .insufficientFunds)) ∨
    (∃ fa ta fa2 e, b.get_account A = some fa ∧ b.get_account B = some ta ∧
      A ≠ B ∧ 0 < amt ∧ amt ≤ fa.balance ∧
      fa.withdraw amt ("Transfer to account " ++ B) m = (fa2, some e) ∧
      b.transfer A B amt m =
        ({ b with accounts := dictSet b.accounts A fa2 }, .returned false)) ∨
    (∃ fa ta fa2, b.get_account A = some fa ∧ b.get_account B = some ta ∧
      A ≠ B ∧ 0 < amt ∧ amt ≤ fa.balance ∧
      fa.withdraw amt ("Transfer to account " ++ B) m = (fa2, none) ∧
      b.transfer A B amt m =
        ({ b with accounts := dictSet (dictSet b.accounts A fa2) B (ta.deposit amt ("Transfer from account " ++ A)).1 },
          .returned true)) := by
  cases hA : b.get_account A with
  | none =>
      left
      exact ⟨rfl, by unfold Bank.transfer; rw [hA]⟩
  | some fa =>
      cases hB : b.get_account B with
      | none =>
          right; left
          exact ⟨by simp [hA], rfl, by unfold Bank.transfer; rw [hA, hB]⟩
      | some ta =>
          by_cases hAB : A = B
          · right; right; left
            refine ⟨by simp [hA], by simp [hB], hAB, ?_⟩
            unfold Bank.transfer
            simp only [hA, hB]
            rw [if_pos hAB]
          · by_cases hle : amt ≤ 0
            · right; right; right; left
              refine ⟨by simp [hA], by simp [hB], hAB, hle, ?_⟩
              unfold Bank.transfer
              simp only [hA, hB]
              rw [if_neg hAB, if_pos hle]
            · by_cases hbal : amt > fa.balance
              · right; right; right; right; left
                refine ⟨fa, rfl, by simp, hAB, by push_neg at hle; exact hle,
                  hbal, ?_⟩
                unfold Bank.transfer
                simp only [hA, hB]
                rw [if_neg hAB, if_neg hle, if_pos hbal]
              · rcases hw : fa.withdraw amt ("Transfer to account " ++ B) m
                  with ⟨fa2, e2⟩
                cases e2 with
                | some e =>
                    right; right; right; right; right; left
                    refine ⟨fa, ta, fa2, e, rfl, rfl, hAB,
                      by push_neg at hle; exact hle,
                      by push_neg at hbal; exact hbal, hw, ?_⟩
                    unfold Bank.transfer
                    simp only [hA, hB]
                    rw [if_neg hAB, if_neg hle, if_neg hbal]
                    simp only [hw]
                | none =>
                    right; right; right; right; right; right
                    refine ⟨fa, ta, fa2, rfl, rfl, hAB,
                      by push_neg at hle; exact hle,
                      by push_neg at hbal; exact hbal, hw, ?_⟩
                    unfold Bank.transfer
                    simp only [hA, hB]
                    rw [if_neg hAB, if_neg hle, if_neg hbal]
                    simp only [hw, deposit_pos ta amt _ hle]

end Banking

namespace Banking

/-! ### Claim C10 -/

/-- Claim C10: for every ledger state, the record returned by the
statistics operation satisfies total_accounts = checking_accounts +
savings_accounts and total_balance = checking_balance + savings_balance;
the operation is a pure function of the ledger (type `Bank → BankStats`),
so it changes no account and no ledger state. -/
theorem claim_C10_statistics_partition (b : Bank) :
    (b.get_bank_statistics).total_accounts =
      (b.get_bank_statistics).checking_accounts +
        (b.get_bank_statistics).savings_accounts ∧
    (b.get_bank_statistics).total_balance =
      (b.get_bank_statistics).checking_balance +
        (b.get_bank_statistics).savings_balance := by
  unfold Bank.get_bank_statistics
  exact ⟨count_partition b.accounts, balance_partition b.accounts⟩

/-! ### Claim C1 -/

/-- Claim C1: transfer atomicity.  If `transfer(A, B, amount)` fails for
any reason — it returns `False` or raises — then every account of the
ledger keeps its balance and its transaction log; in particular
balance(A) + balance(B) is unchanged and no transaction was appended to
either log. -/
theorem claim_C1_transfer_atomicity (b : Bank) (A B id : String) (amt : ℚ)
    (m : Nat) (hfail : (b.transfer A B amt m).2 ≠ .returned true) :
    ((b.transfer A B amt m).1.get_account id).map
        (fun a => (a.balance, a.transactions)) =
      (b.get_account id).map (fun a => (a.balance, a.transactions)) := by
  rcases transfer_spec b A B amt m with
    ⟨h1, heq⟩ | ⟨h1, h2, heq⟩ | ⟨h1, h2, h3, heq⟩ | ⟨h1, h2, h3, h4, heq⟩ |
    ⟨fa, h1, h2, h3, h4, h5, heq⟩ |
    ⟨fa, ta, fa2, e, h1, h2, h3, h4, h5, hw, heq⟩ |
    ⟨fa, ta, fa2, h1, h2, h3, h4, h5, hw, heq⟩
  · rw [heq]
  · rw [heq]
  · rw [heq]
  · rw [heq]
  · rw [heq]
  · rw [heq]
    simp only [Bank.get_account] at h1 ⊢
    by_cases hid : id = A
    · subst hid
      rw [dictGet_dictSet_self, h1]
      have hbal : fa2.balance = fa.balance ∧ fa2.transactions = fa.transactions := by
        have hh := withdraw_err fa amt ("Transfer to account " ++ B) m e (by rw [hw])
        rw [hw] at hh
        exact hh
      simp [hbal.1, hbal.2]
    · rw [dictGet_dictSet_ne _ _ _ _ hid]
  · rw [heq] at hfail
    simp at hfail

/-- Witness for claim C1 at a concrete input: transferring between two
missing accounts of the empty ledger fails, and the (empty) account view
is unchanged. -/
theorem claim_C1_witness :
    ((Bank.mk "T" []).transfer "a" "b" 5 0).2 ≠ .returned true ∧
    (((Bank.mk "T" []).transfer "a" "b" 5 0).1.get_account "a").map
        (fun a => (a.balance, a.transactions)) =
      ((Bank.mk "T" []).get_account "a").map
        (fun a => (a.balance, a.transactions)) :=
  ⟨by decide, claim_C1_transfer_atomicity (Bank.mk "T" []) "a" "b" "a" 5 0 (by decide)⟩

/-! ### Claim C2 -/

/-- Claim C2: transfer conservation.  If `transfer(A, B, amount)` on
distinct existing accounts succeeds, then the balance of A decreases by
exactly the amount, the balance of B increases by exactly the amount, and
exactly one withdrawal transaction is appended to the log of A and
exactly one deposit transaction to the log of B. -/
theorem claim_C2_transfer_conservation (b : Bank) (A B : String) (amt : ℚ)
    (m : Nat) (fa ta : Account) (hA : b.get_account A = some fa)
    (hB : b.get_account B = some ta) (hAB : A ≠ B)
    (hsucc : (b.transfer A B amt m).2 = .returned true) :
    ((b.transfer A B amt m).1.get_account A).map
        (fun a => (a.balance, a.transactions)) =
      some (fa.balance - amt,
        fa.transactions ++ [⟨.withdrawal, amt, "Transfer to account " ++ B⟩]) ∧
    ((b.transfer A B amt m).1.get_account B).map
        (fun a => (a.balance, a.transactions)) =
      some (ta.balance + amt,
        ta.transactions ++ [⟨.deposit, amt, "Transfer from account " ++ A⟩]) := by
  rcases transfer_spec b A B amt m with
    ⟨h1, heq⟩ | ⟨h1, h2, heq⟩ | ⟨h1, h2, h3, heq⟩ | ⟨h1, h2, h3, h4, heq⟩ |
    ⟨fa0, h1, h2, h3, h4, h5, heq⟩ |
    ⟨fa0, ta0, fa2, e, h1, h2, h3, h4, h5, hw, heq⟩ |
    ⟨fa0, ta0, fa2, h1, h2, h3, h4, h5, hw, heq⟩
  · rw [heq] at hsucc; simp at hsucc
  · rw [heq] at hsucc; simp at hsucc
  · rw [heq] at hsucc; simp at hsucc
  · rw [heq] at hsucc; simp at hsucc
  · rw [heq] at hsucc; simp at hsucc
  · rw [heq] at hsucc; simp at hsucc
  · rw [hA] at h1
    injection h1 with h1
    subst h1
    rw [hB] at h2
    injection h2 with h2
    subst h2
    rw [heq]
    simp only [Bank.get_account]
    constructor
    · rw [dictGet_dictSet_ne _ _ _ _ hAB, dictGet_dictSet_self]
      have hok2 : fa2.balance = fa.balance - amt ∧
          fa2.transactions = fa.transactions ++
            [⟨.withdrawal, amt, "Transfer to account " ++ B⟩] := by
        have hok := withdraw_ok fa amt ("Transfer to account " ++ B) m (by rw [hw])
        rw [hw] at hok
        exact ⟨hok.1, hok.2.1⟩
      simp [hok2.1, hok2.2]
    · rw [dictGet_dictSet_self]
      rw [deposit_pos ta amt _ (not_le.mpr h4)]
      simp

/-- Witness for claim C2 at a concrete ledger: transferring 200 from a
checking account with balance 500 to one with balance 1000 succeeds and
moves exactly 200 with exactly one transaction appended on each side. -/
theorem claim_C2_witness :
    two_account_bank.get_account "a" = some alice_account ∧
    two_account_bank.get_account "b" = some bob_account ∧
    "a" ≠ "b" ∧
    (two_account_bank.transfer "a" "b" 200 1).2 = .returned true ∧
    ((two_account_bank.transfer "a" "b" 200 1).1.get_account "a").map
        (fun a => (a.balance, a.transactions)) =
      some (alice_account.balance - 200,
        alice_account.transactions ++
          [⟨.withdrawal, 200, "Transfer to account " ++ "b"⟩]) ∧
    ((two_account_bank.transfer "a" "b" 200 1).1.get_account "b").map
        (fun a => (a.balance, a.transactions)) =
      some (bob_account.balance + 200,
        bob_account.transactions ++
          [⟨.deposit, 200, "Transfer from account " ++ "a"⟩]) := by
  refine ⟨rfl, rfl, by decide, by decide, ?_⟩
  exact claim_C2_transfer_conservation two_account_bank "a" "b" 200 1
    alice_account bob_account rfl rfl (by decide) (by decide)

end Banking

namespace Banking

/-! ### Claim C3 -/

/-- Counterexample to claim C3 as stated: `transfer` on the empty ledger,
a business-rule failure (source account not found), raises a `ValueError`
instead of returning a boolean. -/
theorem claim_C3_counterexample :
    ((Bank.mk "T" []).transfer "a" "b" (5 : ℚ) 0).2 =
      .raised (.valueError "Source account not found") ∧
    ∀ r : Bool, ((Bank.mk "T" []).transfer "a" "b" (5 : ℚ) 0).2 ≠ .returned r := by
  decide

/-- Claim C3 as amended: `transfer` raises (`ValueError`,
`InvalidAmountError`, `InsufficientFundsError`) on the pre-check business
failures — a missing source account, a missing destination account, a
same-account transfer, a non-positive amount, insufficient funds — each
raise leaving the ledger unchanged; a failure raised inside the
withdraw/deposit phase (for these inputs, exactly the monthly withdrawal
limit) is converted into a returned `False`, success returns `True`, and
a `MonthlyWithdrawalLimitError` never escapes. -/
theorem claim_C3_amended_boolean_protocol (b : Bank) (A B : String)
    (amt : ℚ) (m : Nat) :
    (b.get_account A = none →
      b.transfer A B amt m =
        (b, .raised (.valueError "Source account not found"))) ∧
    ((b.get_account A).isSome → b.get_account B = none →
      b.transfer A B amt m =
        (b, .raised (.valueError "Destination account not found"))) ∧
    ((b.get_account A).isSome → (b.get_account B).isSome → A = B →
      b.transfer A B amt m =
        (b, .raised (.valueError "Cannot transfer to the same account"))) ∧
    ((b.get_account A).isSome → (b.get_account B).isSome → A ≠ B → amt ≤ 0 →
      b.transfer A B amt m = (b, .raised .invalidAmount)) ∧
    (∀ fa, b.get_account A = some fa → (b.get_account B).isSome → A ≠ B →
      0 < amt → fa.balance < amt →
      b.transfer A B amt m = (b, .raised .insufficientFunds)) ∧
    (∀ fa, b.get_account A = some fa → (b.get_account B).isSome → A ≠ B →
      0 < amt → amt ≤ fa.balance →
      ((fa.withdraw amt ("Transfer to account " ++ B) m).2 ≠ none →
        (b.transfer A B amt m).2 = .returned false) ∧
      ((fa.withdraw amt ("Transfer to account " ++ B) m).2 = none →
        (b.transfer A B amt m).2 = .returned true)) ∧
    (b.transfer A B amt m).2 ≠ .raised .monthlyWithdrawalLimit := by
  rcases transfer_spec b A B amt m with
    ⟨h1, heq⟩ | ⟨h1, h2, heq⟩ | ⟨h1, h2, h3, heq⟩ | ⟨h1, h2, h3, h4, heq⟩ |
    ⟨fa0, h1, h2, h3, h4, h5, heq⟩ |
    ⟨fa0, ta0, fa2, e0, h1, h2, h3, h4, h5, hw, heq⟩ |
    ⟨fa0, ta0, fa2, h1, h2, h3, h4, h5, hw, heq⟩
  · refine ⟨fun _ => heq, ?_, ?_, ?_, ?_, ?_, by rw [heq]; simp⟩
    · intro hsome _
      rw [h1] at hsome
      simp at hsome
    · intro hsome _ _
      rw [h1] at hsome
      simp at hsome
    · intro hsome _ _ _
      rw [h1] at hsome
      simp at hsome
    · intro fa hfa _ _ _ _
      rw [h1] at hfa
      simp at hfa
    · intro fa hfa _ _ _ _
      rw [h1] at hfa
      simp at hfa
  · refine ⟨?_, fun _ _ => heq, ?_, ?_, ?_, ?_, by rw [heq]; simp⟩
    · intro h
      rw [h] at h1
      simp at h1
    · intro _ hsome _
      rw [h2] at hsome
      simp at hsome
    · intro _ hsome _ _
      rw [h2] at hsome
      simp at hsome
    · intro fa _ hsome _ _ _
      rw [h2] at hsome
      simp at hsome
    · intro fa _ hsome _ _ _
      rw [h2] at hsome
      simp at hsome
  · refine ⟨?_, ?_, fun _ _ _ => heq, ?_, ?_, ?_, by rw [heq]; simp⟩
    · intro h
      rw [h] at h1
      simp at h1
    · intro _ hB
      rw [hB] at h2
      simp at h2
    · intro _ _ hne _
      exact absurd h3 hne
    · intro fa _ _ hne _ _
      exact absurd h3 hne
    · intro fa _ _ hne _ _
      exact absurd h3 hne
  · refine ⟨?_, ?_, ?_, fun _ _ _ _ => heq, ?_, ?_, by rw [heq]; simp⟩
    · intro h
      rw [h] at h1
      simp at h1
    · intro _ hB
      rw [hB] at h2
      simp at h2
    · intro _ _ hAB
      exact absurd hAB h3
    · intro fa _ _ _ hpos _
      exact absurd h4 (not_le.mpr hpos)
    · intro fa _ _ _ hpos _
      exact absurd h4 (not_le.mpr hpos)
  · refine ⟨?_, ?_, ?_, ?_, fun fa _ _ _ _ _ => heq, ?_, by rw [heq]; simp⟩
    · intro h
      rw [h] at h1
      simp at h1
    · intro _ hB
      rw [hB] at h2
      simp at h2
    · intro _ _ hAB
      exact absurd hAB h3
    · intro _ _ _ hle
      exact absurd h4 (not_lt.mpr hle)
    · intro fa hfa _ _ _ hle
      rw [h1] at hfa
      injection hfa with hfa
      subst hfa
      exact absurd h5 (not_lt.mpr hle)
  · refine ⟨?_, ?_, ?_, ?_, ?_, ?_, by rw [heq]; simp⟩
    · intro h
      rw [h] at h1
      simp at h1
    · intro _ hB
      rw [hB] at h2
      simp at h2
    · intro _ _ hAB
      exact absurd hAB h3
    · intro _ _ _ hle
      exact absurd h4 (not_lt.mpr hle)
    · intro fa hfa _ _ _ hover
      rw [h1] at hfa
      injection hfa with hfa
      subst hfa
      exact absurd h5 (not_le.mpr hover)
    · intro fa hfa _ _ _ _
      rw [h1] at hfa
      injection hfa with hfa
      subst hfa
      constructor
      · intro _
        rw [heq]
      · intro hok
        rw [hw] at hok
        simp at hok
  · refine ⟨?_, ?_, ?_, ?_, ?_, ?_, by rw [heq]; simp⟩
    · intro h
      rw [h] at h1
      simp at h1
    · intro _ hB
      rw [hB] at h2
      simp at h2
    · intro _ _ hAB
      exact absurd hAB h3
    · intro _ _ _ hle
      exact absurd h4 (not_lt.mpr hle)
    · intro fa hfa _ _ _ hover
      rw [h1] at hfa
      injection hfa with hfa
      subst hfa
      exact absurd h5 (not_le.mpr hover)
    · intro fa hfa _ _ _ _
      rw [h1] at hfa
      injection hfa with hfa
      subst hfa
      constructor
      · intro hfail
        rw [hw] at hfail
        simp at hfail
      · intro _
        rw [heq]

/-- Witness for the amended claim C3 at concrete ledgers: a zero-amount
transfer raises `InvalidAmountError` leaving the ledger unchanged; a
transfer from a savings account at its monthly limit passes the
pre-checks and returns `False`; a valid transfer between the two
concrete checking accounts returns `True`. -/
theorem claim_C3_amended_witness :
    ("a" ≠ "b") ∧ ((0 : ℚ) ≤ 0) ∧
    two_account_bank.transfer "a" "b" 0 1 =
      (two_account_bank, .raised .invalidAmount) ∧
    limit_bank.get_account "s" = some savings_at_limit ∧
    (0 : ℚ) < 10 ∧ (10 : ℚ) ≤ savings_at_limit.balance ∧
    (savings_at_limit.withdraw 10 ("Transfer to account " ++ "b") 5).2 ≠ none ∧
    (limit_bank.transfer "s" "b" 10 5).2 = .returned false ∧
    (200 : ℚ) ≤ alice_account.balance ∧
    (alice_account.withdraw 200 ("Transfer to account " ++ "b") 1).2 = none ∧
    (two_account_bank.transfer "a" "b" 200 1).2 = .returned true :=
  ⟨by decide, by norm_num,
    (claim_C3_amended_boolean_protocol two_account_bank "a" "b" 0 1).2.2.2.1
      (by decide) (by decide) (by decide) (by norm_num),
    rfl, by norm_num, by decide, by decide,
    ((claim_C3_amended_boolean_protocol limit_bank "s" "b" 10 5).2.2.2.2.2.1
      savings_at_limit rfl (by decide) (by decide) (by norm_num)
      (by decide)).1 (by decide),
    by decide, by decide,
    ((claim_C3_amended_boolean_protocol two_account_bank "a" "b" 200
      1).2.2.2.2.2.1 alice_account rfl (by decide) (by decide) (by norm_num)
      (by decide)).2 (by decide)⟩

end Banking

namespace Banking

/-! ### Claim C5 -/

/-- One successful same-month withdrawal step on a savings account below
its limit, written as an explicit state equation. -/
theorem savings_step (a : Account) (amt : ℚ) (d : String) (m : Nat)
    (hk : a.kind = .savings) (hsame : a.last_withdrawal_month = some m)
    (hcnt : a.withdrawals_this_month < a.withdrawal_limit)
    (hpos : 0 < amt) (hle : amt ≤ a.balance) :
    a.withdraw amt d m =
      ({ a with
          balance := a.balance - amt
          transactions := a.transactions ++ [⟨.withdrawal, amt, d⟩]
          withdrawals_this_month := a.withdrawals_this_month + 1 }, none) := by
  rw [withdraw_savings a amt d m hk]
  have hroll := month_rollover_same a m hsame
  have hlim : ¬ (a.month_rollover m).withdrawals_this_month ≥
      (a.month_rollover m).withdrawal_limit := by
    rw [hroll]
    omega
  have hb : (a.month_rollover m).base_withdraw amt d =
      ({ a with
          balance := a.balance - amt
          transactions := a.transactions ++ [⟨.withdrawal, amt, d⟩] },
        none) := by
    rw [hroll]
    exact base_withdraw_valid a amt d (not_le.mpr hpos) (not_lt.mpr hle)
  rw [savings_withdraw_under_ok a _ amt d m hlim hb]

/-- The at-limit savings state is reachable through the public operations. -/
theorem savings_at_limit_reachable :
    Account.make .savings "S" 100 (1/100) 5 = .ok savings_fresh ∧
    (((savings_fresh.withdraw 1 "w1" 5).1.withdraw 1 "w2" 5).1.withdraw
        1 "w3" 5).1 = savings_at_limit := by
  constructor
  · rw [make_nonneg .savings "S" 100 (1/100) 5 (by norm_num)]
    simp only [if_pos (show (100 : ℚ) > 0 by norm_num)]
    rfl
  · have s1 : savings_fresh.withdraw 1 "w1" 5 = (savings_after_one, none) := by
      rw [savings_step savings_fresh 1 "w1" 5 rfl rfl (by decide) (by norm_num)
        (by norm_num [savings_fresh])]
      simp only [savings_fresh, savings_after_one, Prod.mk.injEq,
        Account.mk.injEq]
      norm_num
    have s2 : savings_after_one.withdraw 1 "w2" 5 =
        (savings_after_two, none) := by
      rw [savings_step savings_after_one 1 "w2" 5 rfl rfl (by decide)
        (by norm_num) (by norm_num [savings_after_one])]
      simp only [savings_after_one, savings_after_two, Prod.mk.injEq,
        Account.mk.injEq]
      norm_num
    have s3 : savings_after_two.withdraw 1 "w3" 5 =
        (savings_at_limit, none) := by
      rw [savings_step savings_after_two 1 "w3" 5 rfl rfl (by decide)
        (by norm_num) (by norm_num [savings_after_two])]
      simp only [savings_after_two, savings_at_limit, Prod.mk.injEq,
        Account.mk.injEq]
      norm_num
    rw [s1]
    simp only
    rw [s2]
    simp only
    rw [s3]

/-- Claim C5: the savings monthly-limit state machine.  Construction sets
limit 3 and count 0; a withdrawal attempt in the same month with the
count at the limit fails with the monthly-limit error and leaves the
whole account (balance and count included) unchanged; after a month
rollover the count resets to 0 and a valid withdrawal succeeds, setting
the count to 1; and the count is incremented by 1 exactly on successful
withdrawals, never on failed ones. -/
theorem claim_C5_savings_monthly_limit :
    (∀ k n bal rate m a, Account.make k n bal rate m = .ok a →
      a.withdrawal_limit = 3 ∧ a.withdrawals_this_month = 0) ∧
    (∀ (a : Account) (amt : ℚ) (d : String) (m : Nat), a.kind = .savings →
      a.last_withdrawal_month = some m →
      a.withdrawal_limit ≤ a.withdrawals_this_month →
      a.withdraw amt d m = (a, some .monthlyWithdrawalLimit)) ∧
    (∀ (a : Account) (amt : ℚ) (d : String) (m : Nat), a.kind = .savings →
      a.last_withdrawal_month ≠ some m → 0 < a.withdrawal_limit →
      0 < amt → amt ≤ a.balance →
      (a.withdraw amt d m).2 = none ∧
      (a.withdraw amt d m).1.withdrawals_this_month = 1 ∧
      (a.withdraw amt d m).1.last_withdrawal_month = some m) ∧
    (∀ (a : Account) (amt : ℚ) (d : String) (m : Nat), a.kind = .savings →
      ((a.withdraw amt d m).2 = none →
        (a.withdraw amt d m).1.withdrawals_this_month =
          (a.month_rollover m).withdrawals_this_month + 1) ∧
      (∀ e, (a.withdraw amt d m).2 = some e →
        (a.withdraw amt d m).1.withdrawals_this_month =
          (a.month_rollover m).withdrawals_this_month)) := by
  refine ⟨?_, ?_, ?_, ?_⟩
  · intro k n bal rate m a h
    obtain ⟨hb, ha⟩ := make_ok_fields k n bal rate m a h
    subst ha
    exact ⟨rfl, rfl⟩
  · intro a amt d m hk hsame hlim
    rw [withdraw_savings a amt d m hk]
    have hroll : a.month_rollover m = a := month_rollover_same a m hsame
    rw [savings_withdraw_limit a amt d m (by rw [hroll]; exact hlim), hroll]
  · intro a amt d m hk hne hlimpos hpos hle
    rw [withdraw_savings a amt d m hk]
    have hroll := month_rollover_ne a m hne
    have hlim : ¬ (a.month_rollover m).withdrawals_this_month ≥
        (a.month_rollover m).withdrawal_limit := by
      rw [hroll]
      simp only
      omega
    have hb := base_withdraw_valid (a.month_rollover m) amt d
      (not_le.mpr hpos)
      (by rw [month_rollover_balance]; exact not_lt.mpr hle)
    rw [savings_withdraw_under_ok a _ amt d m hlim hb]
    refine ⟨rfl, ?_, ?_⟩
    · simp [hroll]
    · simp [hroll]
  · intro a amt d m hk
    constructor
    · intro hnone
      rw [withdraw_savings a amt d m hk] at hnone ⊢
      by_cases hlim : (a.month_rollover m).withdrawals_this_month ≥
          (a.month_rollover m).withdrawal_limit
      · rw [savings_withdraw_limit a amt d m hlim] at hnone
        simp at hnone
      · rcases hw : (a.month_rollover m).base_withdraw amt d with ⟨a2, e2⟩
        cases e2 with
        | none =>
            rw [savings_withdraw_under_ok a a2 amt d m hlim hw]
            have hc : a2.withdrawals_this_month =
                (a.month_rollover m).withdrawals_this_month := by
              have := base_withdraw_count (a.month_rollover m) amt d
              rw [hw] at this
              exact this
            simp only
            rw [hc]
        | some e' =>
            rw [savings_withdraw_under_err a a2 amt d m e' hlim hw] at hnone
            simp at hnone
    · intro e he
      rw [withdraw_savings a amt d m hk] at he ⊢
      by_cases hlim : (a.month_rollover m).withdrawals_this_month ≥
          (a.month_rollover m).withdrawal_limit
      · rw [savings_withdraw_limit a amt d m hlim]
      · rcases hw : (a.month_rollover m).base_withdraw amt d with ⟨a2, e2⟩
        cases e2 with
        | none =>
            rw [savings_withdraw_under_ok a a2 amt d m hlim hw] at he
            simp at he
        | some e' =>
            rw [savings_withdraw_under_err a a2 amt d m e' hlim hw]
            have := base_withdraw_count (a.month_rollover m) amt d
            rw [hw] at this
            exact this

/-- Witness for claim C5 at the concrete at-limit savings account: a 4th
withdrawal in month 5 fails with the monthly-limit error leaving the
account unchanged, and after rolling over to month 6 a withdrawal
succeeds with the count reset to 1. -/
theorem claim_C5_witness :
    savings_at_limit.kind = .savings ∧
    savings_at_limit.last_withdrawal_month = some 5 ∧
    savings_at_limit.withdrawal_limit ≤ savings_at_limit.withdrawals_this_month ∧
    savings_at_limit.withdraw 10 "w" 5 =
      (savings_at_limit, some .monthlyWithdrawalLimit) ∧
    savings_at_limit.last_withdrawal_month ≠ some 6 ∧
    ((savings_at_limit.withdraw 10 "w" 6).2 = none ∧
      (savings_at_limit.withdraw 10 "w" 6).1.withdrawals_this_month = 1 ∧
      (savings_at_limit.withdraw 10 "w" 6).1.last_withdrawal_month = some 6) :=
  ⟨rfl, rfl, by decide,
    claim_C5_savings_monthly_limit.2.1 savings_at_limit 10 "w" 5 rfl rfl
      (by decide),
    by decide,
    claim_C5_savings_monthly_limit.2.2.1 savings_at_limit 10 "w" 6 rfl
      (by decide) (by decide) (by norm_num) (by decide)⟩

/-! ### Claim C6 -/

/-- Counterexample to claim C6 as stated: on a savings account at its
monthly limit, a withdrawal with a non-positive amount (here -5) fails
with the monthly-limit error, not with `InvalidAmountError` as the claim
requires of every account. -/
theorem claim_C6_counterexample :
    (savings_at_limit.withdraw (-5) "w" 5).2 = some .monthlyWithdrawalLimit ∧
    (savings_at_limit.withdraw (-5) "w" 5).2 ≠ some .invalidAmount := by
  decide

/-- Claim C6 as amended: the stated withdraw contract — `InvalidAmount`
for non-positive amounts, `InsufficientFunds` for amounts above the
balance, both leaving balance and log unchanged, otherwise decrease by
the amount with exactly one withdrawal transaction appended — holds for
every checking account, and for savings accounts only when the
(post-rollover) monthly count is below the limit; at the limit the
monthly-limit check takes precedence over amount validation. -/
theorem claim_C6_amended_withdraw_contract (a : Account) (amt : ℚ)
    (d : String) (m : Nat)
    (h : a.kind = .checking ∨
      (a.month_rollover m).withdrawals_this_month < a.withdrawal_limit) :
    (amt ≤ 0 → (a.withdraw amt d m).2 = some .invalidAmount ∧
      (a.withdraw amt d m).1.balance = a.balance ∧
      (a.withdraw amt d m).1.transactions = a.transactions) ∧
    (0 < amt → a.balance < amt →
      (a.withdraw amt d m).2 = some .insufficientFunds ∧
      (a.withdraw amt d m).1.balance = a.balance ∧
      (a.withdraw amt d m).1.transactions = a.transactions) ∧
    (0 < amt → amt ≤ a.balance → (a.withdraw amt d m).2 = none ∧
      (a.withdraw amt d m).1.balance = a.balance - amt ∧
      (a.withdraw amt d m).1.transactions =
        a.transactions ++ [⟨.withdrawal, amt, d⟩]) := by
  cases hk : a.kind with
  | checking =>
      rw [withdraw_checking a amt d m hk]
      refine ⟨?_, ?_, ?_⟩
      · intro hle
        rw [base_withdraw_nonpos a amt d hle]
        exact ⟨rfl, rfl, rfl⟩
      · intro hpos hover
        rw [base_withdraw_over a amt d (not_le.mpr hpos) hover]
        exact ⟨rfl, rfl, rfl⟩
      · intro hpos hle
        rw [base_withdraw_valid a amt d (not_le.mpr hpos) (not_lt.mpr hle)]
        exact ⟨rfl, rfl, rfl⟩
  | savings =>
      have hlt : (a.month_rollover m).withdrawals_this_month <
          a.withdrawal_limit := by
        rcases h with h | h
        · rw [hk] at h
          exact absurd h (by simp)
        · exact h
      have hlim : ¬ (a.month_rollover m).withdrawals_this_month ≥
          (a.month_rollover m).withdrawal_limit := by
        rw [month_rollover_limit]
        omega
      rw [withdraw_savings a amt d m hk]
      refine ⟨?_, ?_, ?_⟩
      · intro hle
        have hb := base_withdraw_nonpos (a.month_rollover m) amt d hle
        rw [savings_withdraw_under_err a _ amt d m _ hlim hb]
        exact ⟨rfl, month_rollover_balance a m, month_rollover_transactions a m⟩
      · intro hpos hover
        have hb := base_withdraw_over (a.month_rollover m) amt d
          (not_le.mpr hpos) (by rw [month_rollover_balance]; exact hover)
        rw [savings_withdraw_under_err a _ amt d m _ hlim hb]
        exact ⟨rfl, month_rollover_balance a m, month_rollover_transactions a m⟩
      · intro hpos hle
        have hb := base_withdraw_valid (a.month_rollover m) amt d
          (not_le.mpr hpos)
          (by rw [month_rollover_balance]; exact not_lt.mpr hle)
        rw [savings_withdraw_under_ok a _ amt d m hlim hb]
        refine ⟨rfl, ?_, ?_⟩
        · simp [month_rollover_balance]
        · simp [month_rollover_transactions]

/-- Witness for the amended claim C6: withdrawing 600 from the concrete
checking account with balance 500 fails with `InsufficientFunds` and
changes nothing. -/
theorem claim_C6_amended_witness :
    alice_account.kind = .checking ∧ (0 : ℚ) < 600 ∧
    alice_account.balance < 600 ∧
    (alice_account.withdraw 600 "w" 1).2 = some .insufficientFunds ∧
    (alice_account.withdraw 600 "w" 1).1.balance = alice_account.balance ∧
    (alice_account.withdraw 600 "w" 1).1.transactions =
      alice_account.transactions :=
  ⟨rfl, by norm_num, by decide,
    (claim_C6_amended_withdraw_contract alice_account 600 "w" 1
      (Or.inl rfl)).2.1 (by norm_num) (by decide)⟩

end Banking

namespace Banking

/-! ### Claim C4 -/

/-- Counterexample to claim C4 as stated: for an account created with
initial balance 100, the log already records the initial deposit, so the
balance (100) differs from initial balance plus signed transaction sum
(100 + 100 = 200). -/
theorem claim_C4_counterexample :
    Account.make .checking "A" 100 0 1 = .ok initial_100_account ∧
    initial_100_account.balance ≠
      100 + signed_sum initial_100_account.transactions := by
  constructor
  · rw [make_nonneg .checking "A" 100 0 1 (by norm_num)]
    simp only [if_pos (show (100 : ℚ) > 0 by norm_num)]
    rfl
  · norm_num [initial_100_account, signed_sum, Transaction.signed_amount]

/-- Claim C4 as amended: at every observation point, the balance of every
account reachable through the public operations equals the sum of the
signed transaction amounts of its log (a positive initial balance is
itself recorded in the log as the initial deposit transaction, so it is
counted there and not added again).  The invariant holds at construction
and is preserved by deposit, withdraw, interest application, account
creation, transfer and the interest sweep. -/
theorem claim_C4_amended_ledger_sum :
    (∀ k n bal rate m a, Account.make k n bal rate m = .ok a →
      balance_invariant a) ∧
    (∀ (a : Account) (amt : ℚ) (d : String), balance_invariant a →
      balance_invariant (a.deposit amt d).1) ∧
    (∀ (a : Account) (amt : ℚ) (d : String) (m : Nat), balance_invariant a →
      balance_invariant (a.withdraw amt d m).1) ∧
    (∀ a : Account, balance_invariant a →
      balance_invariant (a.apply_interest).1) ∧
    (∀ (b : Bank) (t n : String) (bal rate : ℚ) (m : Nat) (id : String)
        (kv : String × Account),
      (∀ kv0 ∈ b.accounts, balance_invariant kv0.2) →
      kv ∈ ((b.create_account t n bal rate m id).1).accounts →
      balance_invariant kv.2) ∧
    (∀ (b : Bank) (A B : String) (amt : ℚ) (m : Nat) (kv : String × Account),
      (∀ kv0 ∈ b.accounts, balance_invariant kv0.2) →
      kv ∈ ((b.transfer A B amt m).1).accounts → balance_invariant kv.2) ∧
    (∀ (b : Bank) (kv : String × Account),
      (∀ kv0 ∈ b.accounts, balance_invariant kv0.2) →
      kv ∈ ((b.apply_interest_to_savings_accounts).1).accounts →
      balance_invariant kv.2) := by
  refine ⟨make_balance_invariant, deposit_balance_invariant,
    withdraw_balance_invariant, apply_interest_balance_invariant, ?_, ?_, ?_⟩
  · intro b t n bal rate m id kv hinv hmem
    unfold Bank.create_account at hmem
    by_cases h1 : lower t = "checking"
    · rw [if_pos h1] at hmem
      rcases hmk : Account.make .checking n bal 0 m with e | acct
      · rw [hmk] at hmem
        exact hinv kv hmem
      · rw [hmk] at hmem
        rcases mem_dictSet b.accounts id acct kv hmem with hkv | hkv
        · rw [hkv]
          exact make_balance_invariant .checking n bal 0 m acct hmk
        · exact hinv kv hkv
    · rw [if_neg h1] at hmem
      by_cases h2 : lower t = "savings"
      · rw [if_pos h2] at hmem
        rcases hmk : Account.make .savings n bal rate m with e | acct
        · rw [hmk] at hmem
          exact hinv kv hmem
        · rw [hmk] at hmem
          rcases mem_dictSet b.accounts id acct kv hmem with hkv | hkv
          · rw [hkv]
            exact make_balance_invariant .savings n bal rate m acct hmk
          · exact hinv kv hkv
      · rw [if_neg h2] at hmem
        exact hinv kv hmem
  · intro b A B amt m kv hinv hmem
    rcases transfer_spec b A B amt m with
      ⟨h1, heq⟩ | ⟨h1, h2, heq⟩ | ⟨h1, h2, h3, heq⟩ | ⟨h1, h2, h3, h4, heq⟩ |
      ⟨fa, h1, h2, h3, h4, h5, heq⟩ |
      ⟨fa, ta, fa2, e, h1, h2, h3, h4, h5, hw, heq⟩ |
      ⟨fa, ta, fa2, h1, h2, h3, h4, h5, hw, heq⟩
    · rw [heq] at hmem; exact hinv kv hmem
    · rw [heq] at hmem; exact hinv kv hmem
    · rw [heq] at hmem; exact hinv kv hmem
    · rw [heq] at hmem; exact hinv kv hmem
    · rw [heq] at hmem; exact hinv kv hmem
    · rw [heq] at hmem
      rcases mem_dictSet b.accounts A fa2 kv hmem with hkv | hkv
      · rw [hkv]
        have hfa : balance_invariant fa :=
          hinv (A, fa) (dictGet_mem b.accounts A fa h1)
        have := withdraw_balance_invariant fa amt
          ("Transfer to account " ++ B) m hfa
        rw [hw] at this
        exact this
      · exact hinv kv hkv
    · rw [heq] at hmem
      rcases mem_dictSet (dictSet b.accounts A fa2) B
          (ta.deposit amt ("Transfer from account " ++ A)).1 kv hmem with
        hkv | hkv
      · rw [hkv]
        have hta : balance_invariant ta :=
          hinv (B, ta) (dictGet_mem b.accounts B ta h2)
        exact deposit_balance_invariant ta amt
          ("Transfer from account " ++ A) hta
      · rcases mem_dictSet b.accounts A fa2 kv hkv with hkv2 | hkv2
        · rw [hkv2]
          have hfa : balance_invariant fa :=
            hinv (A, fa) (dictGet_mem b.accounts A fa h1)
          have := withdraw_balance_invariant fa amt
            ("Transfer to account " ++ B) m hfa
          rw [hw] at this
          exact this
        · exact hinv kv hkv2
  · intro b kv hinv hmem
    unfold Bank.apply_interest_to_savings_accounts at hmem
    rw [applyInterestList_fst] at hmem
    rcases List.mem_map.mp hmem with ⟨kv0, hkv0, hkv⟩
    rw [← hkv]
    show balance_invariant (interest_map kv0.2)
    unfold interest_map
    cases hk2 : kv0.2.kind with
    | checking => exact hinv kv0 hkv0
    | savings => exact apply_interest_balance_invariant kv0.2 (hinv kv0 hkv0)

/-- Witness for the amended claim C4: the invariant holds for the
concrete freshly created account and is preserved by a concrete
deposit. -/
theorem claim_C4_amended_witness :
    balance_invariant initial_100_account ∧
    balance_invariant (initial_100_account.deposit 50 "d").1 := by
  have h : balance_invariant initial_100_account := by
    show initial_100_account.balance = signed_sum initial_100_account.transactions
    norm_num [initial_100_account, signed_sum, Transaction.signed_amount]
  exact ⟨h, claim_C4_amended_ledger_sum.2.1 initial_100_account 50 "d" h⟩

end Banking

namespace Banking

/-! ### Claim C7 -/

/-- Claim C7: balance non-negativity.  Construction rejects a negative
initial balance (and otherwise starts non-negative), and each public
operation — deposit, withdraw, interest application, account creation,
transfer, and the interest sweep — preserves non-negativity of every
balance. -/
theorem claim_C7_balance_nonneg :
    (∀ (k : AccountKind) (n : String) (bal rate : ℚ) (m : Nat), bal < 0 →
      Account.make k n bal rate m = .error .invalidAmount) ∧
    (∀ (k : AccountKind) (n : String) (bal rate : ℚ) (m : Nat) (a : Account),
      Account.make k n bal rate m = .ok a → 0 ≤ a.balance) ∧
    (∀ (a : Account) (amt : ℚ) (d : String), 0 ≤ a.balance →
      0 ≤ (a.deposit amt d).1.balance) ∧
    (∀ (a : Account) (amt : ℚ) (d : String) (m : Nat), 0 ≤ a.balance →
      0 ≤ (a.withdraw amt d m).1.balance) ∧
    (∀ a : Account, 0 ≤ a.balance → 0 ≤ (a.apply_interest).1.balance) ∧
    (∀ (b : Bank) (t n : String) (bal rate : ℚ) (m : Nat) (id : String)
        (kv : String × Account), (∀ kv0 ∈ b.accounts, 0 ≤ kv0.2.balance) →
      kv ∈ ((b.create_account t n bal rate m id).1).accounts →
      0 ≤ kv.2.balance) ∧
    (∀ (b : Bank) (A B : String) (amt : ℚ) (m : Nat) (kv : String × Account),
      (∀ kv0 ∈ b.accounts, 0 ≤ kv0.2.balance) →
      kv ∈ ((b.transfer A B amt m).1).accounts → 0 ≤ kv.2.balance) ∧
    (∀ (b : Bank) (kv : String × Account),
      (∀ kv0 ∈ b.accounts, 0 ≤ kv0.2.balance) →
      kv ∈ ((b.apply_interest_to_savings_accounts).1).accounts →
      0 ≤ kv.2.balance) := by
  refine ⟨make_neg, ?_, deposit_nonneg, withdraw_nonneg, apply_interest_nonneg,
    ?_, ?_, ?_⟩
  · intro k n bal rate m a h
    obtain ⟨hb, ha⟩ := make_ok_fields k n bal rate m a h
    subst ha
    exact not_lt.mp hb
  · intro b t n bal rate m id kv hinv hmem
    unfold Bank.create_account at hmem
    by_cases h1 : lower t = "checking"
    · rw [if_pos h1] at hmem
      rcases hmk : Account.make .checking n bal 0 m with e | acct
      · rw [hmk] at hmem
        exact hinv kv hmem
      · rw [hmk] at hmem
        rcases mem_dictSet b.accounts id acct kv hmem with hkv | hkv
        · rw [hkv]
          obtain ⟨hb, ha⟩ := make_ok_fields .checking n bal 0 m acct hmk
          subst ha
          exact not_lt.mp hb
        · exact hinv kv hkv
    · rw [if_neg h1] at hmem
      by_cases h2 : lower t = "savings"
      · rw [if_pos h2] at hmem
        rcases hmk : Account.make .savings n bal rate m with e | acct
        · rw [hmk] at hmem
          exact hinv kv hmem
        · rw [hmk] at hmem
          rcases mem_dictSet b.accounts id acct kv hmem with hkv | hkv
          · rw [hkv]
            obtain ⟨hb, ha⟩ := make_ok_fields .savings n bal rate m acct hmk
            subst ha
            exact not_lt.mp hb
          · exact hinv kv hkv
      · rw [if_neg h2] at hmem
        exact hinv kv hmem
  · intro b A B amt m kv hinv hmem
    rcases transfer_spec b A B amt m with
      ⟨h1, heq⟩ | ⟨h1, h2, heq⟩ | ⟨h1, h2, h3, heq⟩ | ⟨h1, h2, h3, h4, heq⟩ |
      ⟨fa, h1, h2, h3, h4, h5, heq⟩ |
      ⟨fa, ta, fa2, e, h1, h2, h3, h4, h5, hw, heq⟩ |
      ⟨fa, ta, fa2, h1, h2, h3, h4, h5, hw, heq⟩
    · rw [heq] at hmem; exact hinv kv hmem
    · rw [heq] at hmem; exact hinv kv hmem
    · rw [heq] at hmem; exact hinv kv hmem
    · rw [heq] at hmem; exact hinv kv hmem
    · rw [heq] at hmem; exact hinv kv hmem
    · rw [heq] at hmem
      rcases mem_dictSet b.accounts A fa2 kv hmem with hkv | hkv
      · rw [hkv]
        have hfa : (0 : ℚ) ≤ fa.balance :=
          hinv (A, fa) (dictGet_mem b.accounts A fa h1)
        have := withdraw_nonneg fa amt ("Transfer to account " ++ B) m hfa
        rw [hw] at this
        exact this
      · exact hinv kv hkv
    · rw [heq] at hmem
      rcases mem_dictSet (dictSet b.accounts A fa2) B
          (ta.deposit amt ("Transfer from account " ++ A)).1 kv hmem with
        hkv | hkv
      · rw [hkv]
        have hta : (0 : ℚ) ≤ ta.balance :=
          hinv (B, ta) (dictGet_mem b.accounts B ta h2)
        exact deposit_nonneg ta amt ("Transfer from account " ++ A) hta
      · rcases mem_dictSet b.accounts A fa2 kv hkv with hkv2 | hkv2
        · rw [hkv2]
          have hfa : (0 : ℚ) ≤ fa.balance :=
            hinv (A, fa) (dictGet_mem b.accounts A fa h1)
          have := withdraw_nonneg fa amt ("Transfer to account " ++ B) m hfa
          rw [hw] at this
          exact this
        · exact hinv kv hkv2
  · intro b kv hinv hmem
    unfold Bank.apply_interest_to_savings_accounts at hmem
    rw [applyInterestList_fst] at hmem
    rcases List.mem_map.mp hmem with ⟨kv0, hkv0, hkv⟩
    rw [← hkv]
    show (0 : ℚ) ≤ (interest_map kv0.2).balance
    unfold interest_map
    cases hk2 : kv0.2.kind with
    | checking => exact hinv kv0 hkv0
    | savings => exact apply_interest_nonneg kv0.2 (hinv kv0 hkv0)

/-- Witness for claim C7: the concrete checking account has a
non-negative balance and keeps one after a deposit. -/
theorem claim_C7_witness :
    (0 : ℚ) ≤ alice_account.balance ∧
    (0 : ℚ) ≤ (alice_account.deposit 50 "d").1.balance :=
  ⟨by decide, claim_C7_balance_nonneg.2.2.1 alice_account 50 "d" (by decide)⟩

/-! ### Claim C8 -/

/-- Claim C8: the interest sweep applies interest only to savings
accounts — every checking account is left untouched — and returns the sum
of the per-account amounts returned by the interest application (for a
savings account with non-negative rate and balance, exactly the interest
applied; 0 for checking accounts).  On the concrete ledger with a
checking account of balance 100 and a savings account of balance 1200 at
annual rate 0.12 it returns 12 = 1200 * (0.12 / 12), and the checking
account, balance and log included, is unchanged. -/
theorem claim_C8_interest_sweep :
    (∀ b : Bank, (b.apply_interest_to_savings_accounts).2 =
      (b.accounts.map fun kv => interest_value kv.2).sum) ∧
    (∀ (b : Bank) (id : String) (a : Account), b.get_account id = some a →
      a.kind = .checking →
      (b.apply_interest_to_savings_accounts).1.get_account id = some a) ∧
    ((interest_bank.apply_interest_to_savings_accounts).2 = 12 ∧
      (interest_bank.apply_interest_to_savings_accounts).1.get_account "c1" =
        some interest_checking) := by
  refine ⟨?_, ?_, ?_, ?_⟩
  · intro b
    exact applyInterestList_snd b.accounts
  · intro b id a hget hk
    show dictGet (applyInterestList b.accounts).1 id = some a
    rw [applyInterestList_fst, dictGet_map_interest]
    simp only [Bank.get_account] at hget
    rw [hget]
    simp only [Option.map]
    unfold interest_map
    rw [hk]
  · show (applyInterestList interest_bank.accounts).2 = 12
    rw [applyInterestList_snd]
    have hpos : interest_savings.balance *
        (interest_savings.interest_rate / 12) > 0 := by
      norm_num [interest_savings]
    have hc : interest_value interest_checking = 0 := rfl
    have hs : interest_value interest_savings =
        (interest_savings.apply_interest).2 := rfl
    simp only [interest_bank, List.map_cons, List.map_nil, List.sum_cons,
      List.sum_nil, hc, hs]
    rw [apply_interest_pos interest_savings hpos]
    norm_num [interest_savings]
  · show dictGet (applyInterestList interest_bank.accounts).1 "c1" =
      some interest_checking
    rw [applyInterestList_fst, dictGet_map_interest]
    rfl

/-- Witness for claim C8: the untouched-checking conjunct applied to the
concrete scenario ledger. -/
theorem claim_C8_witness :
    interest_bank.get_account "c1" = some interest_checking ∧
    interest_checking.kind = .checking ∧
    (interest_bank.apply_interest_to_savings_accounts).1.get_account "c1" =
      some interest_checking :=
  ⟨rfl, rfl,
    claim_C8_interest_sweep.2.1 interest_bank "c1" interest_checking rfl rfl⟩

/-! ### Claim C9 -/

/-- Claim C9: account creation.  A kind that lower-cases to neither
"checking" nor "savings" fails with the invalid-account-kind error
leaving the ledger unchanged; a valid kind with a negative initial
balance propagates `InvalidAmount` leaving the ledger unchanged;
otherwise the matching variant is constructed, registered under the
freshly generated identifier, and returned. -/
theorem claim_C9_create_account (b : Bank) (t n : String) (bal rate : ℚ)
    (m : Nat) (id : String) :
    (lower t ≠ "checking" → lower t ≠ "savings" →
      b.create_account t n bal rate m id =
        (b, .error (.valueError
          "Invalid account type. Choose checking or savings"))) ∧
    (bal < 0 → (lower t = "checking" ∨ lower t = "savings") →
      (b.create_account t n bal rate m id).2 = .error .invalidAmount ∧
      (b.create_account t n bal rate m id).1 = b) ∧
    (¬ bal < 0 → lower t = "checking" →
      ∃ acct, (b.create_account t n bal rate m id).2 = .ok acct ∧
        acct.kind = .checking ∧
        (b.create_account t n bal rate m id).1.get_account id = some acct) ∧
    (¬ bal < 0 → lower t = "savings" →
      ∃ acct, (b.create_account t n bal rate m id).2 = .ok acct ∧
        acct.kind = .savings ∧ acct.interest_rate = rate ∧
        (b.create_account t n bal rate m id).1.get_account id = some acct) := by
  refine ⟨?_, ?_, ?_, ?_⟩
  · intro h1 h2
    unfold Bank.create_account
    rw [if_neg h1, if_neg h2]
  · intro hneg hk
    rcases hk with hk | hk
    · unfold Bank.create_account
      rw [if_pos hk, make_neg .checking n bal 0 m hneg]
      exact ⟨rfl, rfl⟩
    · have hnc : ¬ lower t = "checking" := by
        rw [hk]
        decide
      unfold Bank.create_account
      rw [if_neg hnc, if_pos hk, make_neg .savings n bal rate m hneg]
      exact ⟨rfl, rfl⟩
  · intro hnn hk
    unfold Bank.create_account
    rw [if_pos hk, make_nonneg .checking n bal 0 m hnn]
    exact ⟨_, rfl, rfl, dictGet_dictSet_self b.accounts id _⟩
  · intro hnn hk
    have hnc : ¬ lower t = "checking" := by
      rw [hk]
      decide
    unfold Bank.create_account
    rw [if_neg hnc, if_pos hk, make_nonneg .savings n bal rate m hnn]
    exact ⟨_, rfl, rfl, rfl, dictGet_dictSet_self b.accounts id _⟩

/-- Witness for claim C9 at the concrete input of the scenario:
creating a "crypto" account fails with the invalid-account-kind error. -/
theorem claim_C9_witness :
    lower "crypto" ≠ "checking" ∧ lower "crypto" ≠ "savings" ∧
    (Bank.mk "T" []).create_account "crypto" "X" 0 0 1 "id1" =
      (Bank.mk "T" [], .error (.valueError
        "Invalid account type. Choose checking or savings")) :=
  ⟨by decide, by decide,
    (claim_C9_create_account (Bank.mk "T" []) "crypto" "X" 0 0 1 "id1").1
      (by decide) (by decide)⟩

end Banking
